import Mathlib

/-!
# Verification of the BOIIIWD download orchestrator (`src/api/boiiiwd_api_improved.py`)

Shallow embedding of the pure/algorithmic core of the Flask API backend:
identifier extraction, the `to_int` conversion boundary, the progress
estimator of `DownloadManager._perform_download`, the queue-drain loop of
`DownloadManager._process_queue`, admission (`start_download` / `start_queue`),
the pre-download validation sequence, and the install-collision loop.

Modelling conventions:
* Python strings are `List Char`; `str.isdigit` / `str.strip` / regex `\d`
  are modelled for ASCII text (`Char.isDigit`, `Char.isWhitespace`).
* Python float *values* are idealised as exact fractions below the binary64
  overflow threshold (53-bit precision rounding is not modelled, which only
  perturbs low-order digits of truncations, never the raise/return
  behaviour); `float()` parse overflow saturates to IEEE infinity at the
  exact binary64 rounding threshold, and the literal infinity/nan spellings
  and PEP 515 underscore digit grouping accepted by `float()` are modelled.
* Machine integers do not overflow in Python, so `Nat` / `Int` are used
  directly.
* The external SteamCMD process and the filesystem are environment inputs:
  each polling iteration of the download loop is driven by an event that
  records what `poll()` / the size sampler returned at that instant.
-/

deriving instance DecidableEq for Except

/-! ## String helpers (`extract_workshop_id`, `str.strip`, `str.isdigit`) -/

/-- `str.strip()` (ASCII whitespace): drop leading whitespace, then drop
trailing whitespace, from `boiiiwd_api_improved.py` usage. -/
def pyStrip (s : List Char) : List Char :=
  ((s.dropWhile Char.isWhitespace).reverse.dropWhile Char.isWhitespace).reverse

/-- `str.isdigit()` for ASCII text: non-empty and all decimal digits. -/
def pyIsDigit (s : List Char) : Bool :=
  !s.isEmpty && s.all Char.isDigit

/-- `re.search(r"id=(\d+)", value)`: scan left to right for the first
position where `id=` is followed by at least one digit; the captured group
is the maximal digit run after `id=`. -/
def findIdMatch : List Char → Option (List Char)
  | [] => none
  | c :: rest =>
    if c = 'i' ∧ rest.take 2 = [ 'd', '=' ] ∧ (rest.drop 2).takeWhile Char.isDigit ≠ []
    then some ((rest.drop 2).takeWhile Char.isDigit)
    else findIdMatch rest

/-- `extract_workshop_id` (lines 79-86): strip; all-digit input is returned
as is; otherwise return the group of the first `id=(\d+)` match. -/
def extract_workshop_id (s : List Char) : Option (List Char) :=
  let v := pyStrip s
  if pyIsDigit v then some v
  else findIdMatch v

/-! ## `to_int` (lines 89-104) -/

/-- Idealised Python float: exact finite values kept as an unreduced
fraction `num / den` (never compared, only truncated), plus the three
special values `float()` can produce from the literal spellings. -/
inductive PyFloat where
  | finite (num : Int) (den : Nat)
  | inf
  | neginf
  | nan
deriving DecidableEq

/-- The two exception classes relevant to `to_int`: `int(float('inf'))`
raises `OverflowError`, `int(float('nan'))` and unparsable strings raise
`ValueError`. -/
inductive PyErr where
  | valueError
  | overflowError
deriving DecidableEq

/-- The value space of `to_int`'s parameter (`Optional[object]` restricted
to the types the function distinguishes). -/
inductive PyVal where
  | none
  | bool (b : Bool)
  | int (n : Int)
  | float (f : PyFloat)
  | str (s : List Char)
deriving DecidableEq

/-- Decimal digit run to a natural number. -/
def digitsToNat (ds : List Char) : Nat :=
  ds.foldl (fun a c => a * 10 + (c.toNat - 48)) 0

/-- `int(cleaned)` on a string that passed the digit-form test:
all digits, or `-` followed by digits. -/
def pyIntOfDigitForm (cs : List Char) : Int :=
  match cs with
  | '-' :: rest => -(digitsToNat rest : Int)
  | _ => (digitsToNat cs : Int)

/-- The digit-form test of `to_int`:
`cleaned.isdigit() or (cleaned.startswith("-") and cleaned[1:].isdigit())`. -/
def intForm (cs : List Char) : Bool :=
  pyIsDigit cs || (cs.head? = some '-' && pyIsDigit (cs.drop 1))

/-- Continuation of a PEP 515 `digitpart ::= digit (["_"] digit)*` after at
least one digit: consume further digits, each optionally preceded by a
single underscore that must sit between two digits; returns the digits
(underscores dropped) and the unconsumed rest. -/
def parseDigitPartCont : List Char → List Char × List Char
  | [] => ([], [])
  | '_' :: d :: rest =>
    if d.isDigit then
      let r := parseDigitPartCont rest
      (d :: r.1, r.2)
    else ([], '_' :: d :: rest)
  | c :: rest =>
    if c.isDigit then
      let r := parseDigitPartCont rest
      (c :: r.1, r.2)
    else ([], c :: rest)

/-- A maximal PEP 515 `digitpart` (`digit (["_"] digit)*`), as accepted by
the `float()` constructor: returns the digits with grouping underscores
removed, and the unconsumed rest (empty digit list when the input does not
start with a digit). -/
def parseDigitPart : List Char → List Char × List Char
  | [] => ([], [])
  | c :: rest =>
    if c.isDigit then
      let r := parseDigitPartCont rest
      (c :: r.1, r.2)
    else ([], c :: rest)

/-- Mantissa part of `float()`'s grammar:
`digitpart ('.' digitpart?)? | '.' digitpart`.
Returns the exact value as a numerator/denominator pair and the
unconsumed rest: `D.F` denotes `(D * 10^|F| + F) / 10^|F|`. -/
def parseMantissa (cs : List Char) : Option ((Nat × Nat) × List Char) :=
  let ipr := parseDigitPart cs
  if ipr.1.isEmpty then
    match ipr.2 with
    | '.' :: r2 =>
      let fpr := parseDigitPart r2
      if fpr.1.isEmpty then none
      else some ((digitsToNat fpr.1, 10 ^ fpr.1.length), fpr.2)
    | _ => none
  else
    match ipr.2 with
    | '.' :: r2 =>
      let fpr := parseDigitPart r2
      some ((digitsToNat ipr.1 * 10 ^ fpr.1.length + digitsToNat fpr.1,
             10 ^ fpr.1.length), fpr.2)
    | _ => some ((digitsToNat ipr.1, 1), ipr.2)

/-- Optional exponent part of `float()`'s grammar:
`((e|E) (+|-)? digitpart)?`. -/
def parseExpPart (cs : List Char) : Option (Int × List Char) :=
  match cs with
  | [] => some (0, [])
  | c :: r =>
    if c = 'e' ∨ c = 'E' then
      let sgn := match r with
        | '+' :: t => (false, t)
        | '-' :: t => (true, t)
        | t => (false, t)
      let dr := parseDigitPart sgn.2
      if dr.1.isEmpty then none
      else some ((if sgn.1 then -(digitsToNat dr.1 : Int) else (digitsToNat dr.1 : Int)),
                 dr.2)
    else some (0, cs)

/-- Apply a decimal exponent to an exact signed mantissa fraction (the
power of ten is computed in `Nat` and cast, so that kernel evaluation of
concrete literals uses the accelerated `Nat` arithmetic). -/
def applyExp (num : Int) (den : Nat) (e : Int) : Int × Nat :=
  if 0 ≤ e then (num * ((10 ^ e.toNat : Nat) : Int), den)
  else (num, den * 10 ^ (-e).toNat)

/-- Binary64 overflow saturation performed by `float()`: a decimal value
whose magnitude is at least `2^1024 - 2^970` — the round-to-nearest-even
midpoint above the largest finite double, which rounds up to the overflow
value `2^1024` — becomes an infinity (so e.g. `float('1e999')` is `inf`);
smaller values are kept exact rather than rounded to 53-bit precision, an
idealisation that preserves the raise/return behaviour of
`int(float(...))`. -/
def pyFloatOfExact (num : Int) (den : Nat) : PyFloat :=
  if ((2 ^ 1024 - 2 ^ 970 : Nat) : Int) * den ≤ num then PyFloat.inf
  else if num ≤ -(((2 ^ 1024 - 2 ^ 970 : Nat) : Int) * den) then PyFloat.neginf
  else PyFloat.finite num den

/-- `float(cleaned)` on an already-stripped string (ASCII): optional sign,
then `inf`/`infinity`/`nan` (case-insensitive) or a decimal literal with
optional exponent and PEP 515 underscore digit grouping; the whole string
must be consumed. The exact result saturates to an infinity at the
binary64 overflow threshold (`pyFloatOfExact`). `none` models a raised
`ValueError`. -/
def pyParseFloat (cs : List Char) : Option PyFloat :=
  let sgn := match cs with
    | '+' :: t => (false, t)
    | '-' :: t => (true, t)
    | t => (false, t)
  let lower := sgn.2.map Char.toLower
  if lower = "inf".data ∨ lower = "infinity".data then
    some (if sgn.1 then PyFloat.neginf else PyFloat.inf)
  else if lower = "nan".data then some PyFloat.nan
  else
    match parseMantissa sgn.2 with
    | Option.none => Option.none
    | some mr =>
      match parseExpPart mr.2 with
      | Option.none => Option.none
      | some er =>
        if er.2.isEmpty then
          let v := applyExp (if sgn.1 then -(mr.1.1 : Int) else (mr.1.1 : Int)) mr.1.2 er.1
          some (pyFloatOfExact v.1 v.2)
        else Option.none

/-- Truncation toward zero of an exact fraction, the semantics of Python
`int(float)` on finite values (`Int.tdiv` truncates toward 0). -/
def pyTrunc (num : Int) (den : Nat) : Int := num.tdiv den

/-- `int(f)` on a float: truncation on finite values, `OverflowError` on
infinities, `ValueError` on nan. -/
def pyIntOfFloat : PyFloat → Except PyErr Int
  | PyFloat.finite num den => Except.ok (pyTrunc num den)
  | PyFloat.inf => Except.error PyErr.overflowError
  | PyFloat.neginf => Except.error PyErr.overflowError
  | PyFloat.nan => Except.error PyErr.valueError

/-- `to_int` (lines 89-104). The `try`/`except ValueError` block wraps both
`float(cleaned)` and the outer `int(...)`; an `OverflowError` from
`int(float('inf'))` is not caught and escapes as `Except.error`. -/
def to_int : PyVal → Except PyErr Int
  | PyVal.none => Except.ok 0
  | PyVal.bool b => Except.ok (if b then 1 else 0)
  | PyVal.int n => Except.ok n
  | PyVal.float f => pyIntOfFloat f
  | PyVal.str s =>
    let cleaned := pyStrip s
    if cleaned.isEmpty then Except.ok 0
    else if intForm cleaned then Except.ok (pyIntOfDigitForm cleaned)
    else
      match pyParseFloat cleaned with
      | Option.none => Except.ok 0
      | some f =>
        match pyIntOfFloat f with
        | Except.ok n => Except.ok n
        | Except.error PyErr.valueError => Except.ok 0
        | Except.error PyErr.overflowError => Except.error PyErr.overflowError

/-! ## Progress estimator (`_perform_download`, lines 557-611) -/

/-- `size_samples.append(total); if len > 60: pop(0)` (lines 583-585). -/
def stepSamples (samples : List Nat) (total : Nat) : List Nat :=
  let s := samples ++ [total]
  if s.length > 60 then s.drop 1 else s

/-- `average_bytes = sum(size_samples[-5:]) // min(len(size_samples), 5)`
(line 587); only evaluated on non-empty histories. -/
def averageBytes (samples : List Nat) : Nat :=
  (samples.drop (samples.length - 5)).sum / min samples.length 5

/-- Raw percentage of one tick (lines 597-599):
`progress = min(int(average_bytes / file_size_bytes * 100), 100)` when the
expected size is known, 0 otherwise; `int` truncation of the exact
quotient is `Nat` floor division. -/
def rawProgress (fileSizeBytes avg : Nat) : Nat :=
  if fileSizeBytes ≠ 0 then min (avg * 100 / fileSizeBytes) 100 else 0

/-- Modelled from the spec: the spec's words `min(round(average of the last
5 samples / expected total size * 100), 100)` with round-to-nearest
(half away from zero); to be compared with `rawProgress`. -/
def rawPercentRounded (fileSizeBytes avg : Nat) : Nat :=
  min ((avg * 100 + fileSizeBytes / 2) / fileSizeBytes) 100

/-- The two clamps of lines 601-605: never below the previously reported
value; 99 when the result reaches 100 while `self.process.poll()` (re-run
at this point) still says the process is running. -/
def clampProgress (prev raw : Nat) (runningAtClamp : Bool) : Nat :=
  let p := if raw < prev then prev else raw
  if 100 ≤ p ∧ runningAtClamp then 99 else p

/-- One iteration of the polling loop, as observed from the environment:
either `stop_event` was found set (with the fact of whether the terminated
process exits inside the 5-second `wait(timeout=5)`), or a normal sampling
tick carrying the measured byte total and the result of the second
`poll()` at the clamp check. -/
inductive LoopEvent where
  | stopTick (exitsWithinTimeout : Bool)
  | pollTick (total : Nat) (runningAtClamp : Bool)
deriving DecidableEq

/-- Outcome of the polling loop: the terminal `download_status` it wrote
(`"stopped"` on a cancelled run, `"error"` when `wait(timeout=5)` raised
`TimeoutExpired` into the catch-all handler, `"exited"` meaning the loop
ended because the head `poll()` saw the process gone and control proceeds
to `wait()`), plus every `download_progress` value written, in order. -/
structure LoopOutcome where
  phase : String
  reported : List Nat
deriving DecidableEq

/-- The `while self.process.poll() is None` loop (lines 562-611). The event
list ends when the head `poll()` observes the exit. -/
def runDownloadLoop (fileSizeBytes : Nat) (samples : List Nat) (prev : Nat) :
    List LoopEvent → LoopOutcome
  | [] => ⟨"exited", []⟩
  | LoopEvent.stopTick ok :: _ =>
    if ok then ⟨"stopped", []⟩ else ⟨"error", []⟩
  | LoopEvent.pollTick total running :: rest =>
    let s := stepSamples samples total
    let p := clampProgress prev (rawProgress fileSizeBytes (averageBytes s)) running
    let o := runDownloadLoop fileSizeBytes s p rest
    ⟨o.phase, p :: o.reported⟩

/-- Lines 613-616: a non-zero `SteamCMD` exit code turns the job to
`"error"`; `Option.none` means control continues into finalization. -/
def postExitStatus (returnCode : Int) : Option String :=
  if returnCode ≠ 0 then some "error" else Option.none

/-! ## Queue operations (`enqueue`, `_process_queue`) -/

/-- `DownloadManager.enqueue` (lines 409-415): append each item not already
in the pending queue; returns the new queue and the added items. -/
def enqueue (queue : List String) (items : List String) : List String × List String :=
  items.foldl
    (fun acc item =>
      if item ∈ acc.1 then acc else (acc.1 ++ [item], acc.2 ++ [item]))
    (queue, [])

/-- `_process_queue` (lines 429-439) with no stop request, in queue mode,
driven by an oracle saying whether `_perform_download` of an identifier
succeeds: returns the identifiers actually run (in order) and the queue
left behind. On failure the failing head is popped and the loop `break`s. -/
def processQueueResult (succeeds : String → Bool) : List String → List String × List String
  | [] => ([], [])
  | id :: rest =>
    if succeeds id then
      let r := processQueueResult succeeds rest
      (id :: r.1, r.2)
    else ([id], rest)

/-- A point-in-time snapshot of the externally visible state during queue
processing: the pending queue and `current_download`. -/
structure Snap where
  queue : List String
  current : Option String
deriving DecidableEq

/-- Observable snapshots along `_process_queue`: while `_perform_download`
runs, `current_download` is the head identifier and the queue still holds
it (`pop(0)` happens only after the call returns); the trailing update of
line 438 clears `current_download`. -/
def drainTrace (succeeds : String → Bool) : List String → List Snap
  | [] => [⟨[], Option.none⟩]
  | id :: rest =>
    ⟨id :: rest, some id⟩ :: ⟨rest, some id⟩ ::
      (if succeeds id then drainTrace succeeds rest else [⟨rest, Option.none⟩])

/-! ## Admission (`DownloadManager.start_download` / `start_queue`) -/

/-- The manager's mutable fields touched by admission, plus the shared
pending queue of `app_state`. -/
structure ManagerState where
  threadAlive : Bool
  queueThreadAlive : Bool
  stopEventSet : Bool
  currentMode : Option String
  queue : List String
deriving DecidableEq

/-- `is_busy` (lines 386-389). -/
def is_busy (s : ManagerState) : Bool :=
  s.threadAlive || s.queueThreadAlive

/-- `start_download` (lines 391-399): under the lock, reject when busy;
otherwise clear the stop event and spawn the single-job worker. -/
def start_download (s : ManagerState) (workshopId : String) :
    (Bool × Option String) × ManagerState :=
  if is_busy s then ((false, some "Another download is already running"), s)
  else ((true, Option.none),
    { s with stopEventSet := false, threadAlive := true, currentMode := some "single" })

/-- `start_queue` (lines 417-427): under the lock, reject when busy or when
the queue is empty; otherwise spawn the queue worker. -/
def start_queue (s : ManagerState) : (Bool × Option String) × ManagerState :=
  if is_busy s then ((false, some "A download is already running"), s)
  else if s.queue.isEmpty then ((false, some "The queue is empty"), s)
  else ((true, Option.none),
    { s with stopEventSet := false, queueThreadAlive := true, currentMode := some "queue" })

/-- The `/api/download` endpoint (lines 829-840): only a missing/empty
`workshop_id` is rejected with 400 before admission; anything else goes to
`start_download` (409 when busy, 200 when the worker is spawned). -/
def download_workshop_item (s : ManagerState) (workshopId : String) : Nat × ManagerState :=
  if workshopId = "" then (400, s)
  else
    let r := start_download s workshopId
    if r.1.1 then (200, r.2) else (409, r.2)

/-! ## Pre-download validation (`_perform_download`, lines 446-555) -/

/-- Environment facts consulted by the validation sequence, in source
order: configured paths, filesystem existence checks, and whether the
remote metadata request succeeds. -/
structure DownloadEnv where
  destinationRaw : List Char
  steamcmdRaw : List Char
  destinationExists : Bool
  steamcmdIsFile : Bool
  steamcmdFileName : String
  steamcmdDirExists : Bool
  steamcmdExeExists : Bool
  detailsOk : Bool
deriving DecidableEq

/-- Result of the validation sequence: an error message written together
with `download_status = "error"`, or the launch of the external process
with the normalized identifier. -/
inductive PreOutcome where
  | rejected (message : String)
  | launched (workshopId : List Char)
deriving DecidableEq

/-- The checks of `_perform_download` before `subprocess.Popen`, in source
order (lines 446-508): empty destination setting, empty SteamCMD setting,
identifier normalization (`isdigit` else `extract_workshop_id`),
destination existence, SteamCMD executable name, SteamCMD path and
executable existence, and the remote metadata request. -/
def preDownload (env : DownloadEnv) (w0 : List Char) : PreOutcome :=
  let w := pyStrip w0
  if env.destinationRaw = [] then PreOutcome.rejected "Destination folder is not set"
  else if env.steamcmdRaw = [] then PreOutcome.rejected "SteamCMD path is not set"
  else
    match (if pyIsDigit w then some w else extract_workshop_id w) with
    | Option.none => PreOutcome.rejected "Invalid Workshop ID"
    | some wid =>
      if env.destinationExists = false then
        PreOutcome.rejected "Destination folder does not exist"
      else if env.steamcmdIsFile && !(env.steamcmdFileName.toLower = "steamcmd.exe") then
        PreOutcome.rejected ("Invalid SteamCMD executable: " ++ env.steamcmdFileName)
      else if env.steamcmdDirExists = false then
        PreOutcome.rejected "SteamCMD path does not exist"
      else if env.steamcmdExeExists = false then
        PreOutcome.rejected "SteamCMD was not found"
      else if env.detailsOk = false then
        PreOutcome.rejected "workshop details request failed"
      else PreOutcome.launched wid

/-- The `download_status` phases written by `_perform_download` up to the
launch of the external process: `"preparing"` first (line 449), then
either `"error"` on a rejected validation or `"downloading"` (line 519). -/
def preDownloadPhases (env : DownloadEnv) (w0 : List Char) : List String :=
  match preDownload env w0 with
  | PreOutcome.rejected _ => ["preparing", "error"]
  | PreOutcome.launched _ => ["preparing", "downloading"]

/-! ## Install finalization (`_perform_download`, lines 653-668) -/

/-- The collision loop of lines 658-662, for a string-valued declared
folder name: `final_folder` starts as the declared name; the loop guard is
`final_folder.exists() and attempts < 10 and final_folder.name != folder_name`,
and the body proposes `f"{folder_name}_{workshop_id}_{attempts}"`.
`existing` is the set of sibling directory names present on disk. -/
def resolveAux (existing : List String) (folderName workshopId : String)
    (current : String) (attempts : Nat) : String :=
  if h : current ∈ existing ∧ attempts < 10 ∧ current ≠ folderName then
    resolveAux existing folderName workshopId
      (folderName ++ "_" ++ workshopId ++ "_" ++ toString (attempts + 1)) (attempts + 1)
  else current
termination_by 10 - attempts
decreasing_by omega

/-- The destination directory name chosen by the install step; the
subsequent `shutil.copytree(source_root, final_folder / "zone",
dirs_exist_ok=True)` copies into it even when it already exists. -/
def resolveFinalFolder (existing : List String) (folderName workshopId : String) : String :=
  resolveAux existing folderName workshopId folderName 0

/-! # Theorems -/

/-! ## Generic list facts used by several proofs -/

theorem dropWhile_head_not {α : Type} (p : α → Bool) :
    ∀ (l : List α) (x : α) (t : List α), l.dropWhile p = x :: t → p x = false := by
  intro l
  induction l with
  | nil => intro x t h; simp [List.dropWhile] at h
  | cons c r ih =>
    intro x t h
    by_cases hc : p c
    · rw [List.dropWhile_cons_of_pos hc] at h
      exact ih x t h
    · rw [List.dropWhile_cons_of_neg hc] at h
      injection h with h1 h2
      subst h1
      simpa using hc

/-! ## `extract_workshop_id` -/

theorem findIdMatch_digits : ∀ (cs r : List Char), findIdMatch cs = some r →
    r ≠ [] ∧ r.all Char.isDigit = true := by
  intro cs
  induction cs with
  | nil => intro r h; simp [findIdMatch] at h
  | cons c rest ih =>
    intro r h
    simp only [findIdMatch] at h
    by_cases hc : c = 'i' ∧ rest.take 2 = [ 'd', '=' ] ∧ (rest.drop 2).takeWhile Char.isDigit ≠ []
    · rw [if_pos hc] at h
      injection h with h1
      constructor
      · rw [← h1]; exact hc.2.2
      · rw [← h1]
        apply List.all_eq_true.mpr
        intro x hx
        exact List.mem_takeWhile_imp hx
    · rw [if_neg hc] at h
      exact ih r h

theorem findIdMatch_decomp : ∀ (cs r : List Char), findIdMatch cs = some r →
    ∃ pre post, cs = pre ++ 'i' :: 'd' :: '=' :: (r ++ post) ∧
      (∀ c, post.head? = some c → Char.isDigit c = false) ∧
      (∀ pre2 d post2, cs = pre2 ++ 'i' :: 'd' :: '=' :: d :: post2 →
        Char.isDigit d = true → pre.length ≤ pre2.length) := by
  intro cs
  induction cs with
  | nil => intro r h; simp [findIdMatch] at h
  | cons c rest ih =>
    intro r h
    simp only [findIdMatch] at h
    by_cases hc : c = 'i' ∧ rest.take 2 = [ 'd', '=' ] ∧ (rest.drop 2).takeWhile Char.isDigit ≠ []
    · rw [if_pos hc] at h
      obtain ⟨hci, htake, hne⟩ := hc
      injection h with h1
      have hrest : rest = 'd' :: '=' :: rest.drop 2 := by
        conv_lhs => rw [← List.take_append_drop 2 rest]
        rw [htake]
        rfl
      refine ⟨[], (rest.drop 2).dropWhile Char.isDigit, ?_, ?_, ?_⟩
      · subst hci
        rw [← h1, List.nil_append]
        conv_lhs => rw [hrest]
        rw [List.takeWhile_append_dropWhile]
      · intro x hx
        cases hdw : (rest.drop 2).dropWhile Char.isDigit with
        | nil => rw [hdw] at hx; simp at hx
        | cons y t =>
          rw [hdw] at hx
          simp at hx
          subst hx
          exact dropWhile_head_not Char.isDigit (rest.drop 2) y t hdw
      · intro pre2 d post2 heq hd
        simp
    · rw [if_neg hc] at h
      obtain ⟨pre, post, hsplit, hpost, hmin⟩ := ih r h
      refine ⟨c :: pre, post, by rw [hsplit]; rfl, hpost, ?_⟩
      intro pre2 d post2 heq hd
      cases pre2 with
      | nil =>
        simp only [List.nil_append] at heq
        injection heq with he1 he2
        exfalso
        apply hc
        refine ⟨he1, ?_, ?_⟩
        · rw [he2]; rfl
        · rw [he2]
          simp [List.takeWhile_cons, hd]
      | cons c2 pre2t =>
        injection heq with he1 he2
        have := hmin pre2t d post2 he2 hd
        simp only [List.length_cons]
        omega

theorem findIdMatch_exists :
    ∀ (pre2 cs post2 : List Char) (d : Char),
      cs = pre2 ++ 'i' :: 'd' :: '=' :: d :: post2 → Char.isDigit d = true →
      ∃ r, findIdMatch cs = some r := by
  intro pre2
  induction pre2 with
  | nil =>
    intro cs post2 d heq hdig
    subst heq
    simp only [List.nil_append, findIdMatch]
    split
    · exact ⟨_, rfl⟩
    · rename_i hcond
      exfalso
      apply hcond
      simp [List.takeWhile_cons, hdig]
  | cons c pre2t ih =>
    intro cs post2 d heq hdig
    subst heq
    simp only [List.cons_append, findIdMatch]
    split
    · exact ⟨_, rfl⟩
    · exact ih _ post2 d rfl hdig

/-- C9: `extract_workshop_id` returns `none` or a non-empty all-digit
string; a stripped all-digit input is returned unchanged; otherwise a
returned value is the maximal digit run after the leftmost `id=` that is
followed by a digit, and `some` is returned whenever such an `id=<digit>`
occurrence is present in the stripped input. -/
theorem C9_extract_workshop_id_spec (s : List Char) :
    (∀ r, extract_workshop_id s = some r → r ≠ [] ∧ r.all Char.isDigit = true) ∧
    (pyIsDigit (pyStrip s) = true → extract_workshop_id s = some (pyStrip s)) ∧
    (pyIsDigit (pyStrip s) = false → ∀ r, extract_workshop_id s = some r →
      ∃ pre post, pyStrip s = pre ++ 'i' :: 'd' :: '=' :: (r ++ post) ∧
        (∀ c, post.head? = some c → Char.isDigit c = false) ∧
        (∀ pre2 d post2, pyStrip s = pre2 ++ 'i' :: 'd' :: '=' :: d :: post2 →
          Char.isDigit d = true → pre.length ≤ pre2.length)) ∧
    (pyIsDigit (pyStrip s) = false →
      ∀ pre2 d post2, pyStrip s = pre2 ++ 'i' :: 'd' :: '=' :: d :: post2 →
        Char.isDigit d = true → ∃ r, extract_workshop_id s = some r) := by
  refine ⟨?_, ?_, ?_, ?_⟩
  · intro r h
    simp only [extract_workshop_id] at h
    by_cases hd : pyIsDigit (pyStrip s)
    · rw [if_pos hd] at h
      injection h with h1
      subst h1
      simp only [pyIsDigit, Bool.and_eq_true, Bool.not_eq_true'] at hd
      refine ⟨?_, hd.2⟩
      intro hnil
      rw [hnil] at hd
      simp at hd
    · rw [if_neg hd] at h
      exact findIdMatch_digits (pyStrip s) r h
  · intro hd
    simp only [extract_workshop_id]
    rw [if_pos hd]
  · intro hd r h
    simp only [extract_workshop_id] at h
    rw [if_neg (by simp [hd])] at h
    exact findIdMatch_decomp (pyStrip s) r h
  · intro hd pre2 d post2 heq hdig
    simp only [extract_workshop_id]
    rw [if_neg (by simp [hd])]
    exact findIdMatch_exists pre2 (pyStrip s) post2 d heq hdig

/-- C9 witness: an all-digit input is returned stripped, and a URL-shaped
input containing `id=42` does yield a result. -/
theorem C9_extract_witness :
    extract_workshop_id " 42 ".data = some (pyStrip " 42 ".data) ∧
    ∃ r, extract_workshop_id "x?id=42".data = some r :=
  ⟨(C9_extract_workshop_id_spec " 42 ".data).2.1 (by decide),
   (C9_extract_workshop_id_spec "x?id=42".data).2.2.2 (by decide)
     "x?".data '4' "2".data (by decide) (by decide)⟩

/-! ## `to_int` -/

set_option exponentiation.threshold 1100 in
/-- C10 counterexample: `to_int` is not total — the string `"inf"` parses
to an infinite float, and `"1e999"` overflows the binary64 range so
`float('1e999')` is also `inf`; in both cases `int(float(...))` raises
`OverflowError`, which the `except ValueError` handler does not catch. -/
theorem C10_to_int_raises_counterexample :
    to_int (PyVal.str "inf".data) = Except.error PyErr.overflowError ∧
    to_int (PyVal.str "1e999".data) = Except.error PyErr.overflowError := by decide

/-- C10 (amended): `to_int` returns an integer for every input except the
infinite floats, the nan float, and strings whose float parse is an
infinity; it returns 0 for `None`, for empty strings and for unparsable
strings, and truncates a finite float parse toward zero. -/
theorem C10_to_int_total_characterization :
    (∀ (v : PyVal) (e : PyErr), to_int v = Except.error e →
      (v = PyVal.float PyFloat.inf ∨ v = PyVal.float PyFloat.neginf ∨
       v = PyVal.float PyFloat.nan ∨
       ∃ s, v = PyVal.str s ∧ (pyParseFloat (pyStrip s) = some PyFloat.inf ∨
         pyParseFloat (pyStrip s) = some PyFloat.neginf))) ∧
    (to_int PyVal.none = Except.ok 0) ∧
    (∀ s, pyStrip s = [] → to_int (PyVal.str s) = Except.ok 0) ∧
    (∀ s, intForm (pyStrip s) = false → pyParseFloat (pyStrip s) = Option.none →
      to_int (PyVal.str s) = Except.ok 0) ∧
    (∀ s num den, intForm (pyStrip s) = false →
      pyParseFloat (pyStrip s) = some (PyFloat.finite num den) →
      to_int (PyVal.str s) = Except.ok (pyTrunc num den)) := by
  refine ⟨?_, rfl, ?_, ?_, ?_⟩
  · intro v e h
    cases v with
    | none => simp [to_int] at h
    | bool b => simp [to_int] at h
    | int n => simp [to_int] at h
    | float f =>
      cases f with
      | finite num den => simp [to_int, pyIntOfFloat] at h
      | inf => exact Or.inl rfl
      | neginf => exact Or.inr (Or.inl rfl)
      | nan => exact Or.inr (Or.inr (Or.inl rfl))
    | str s =>
      refine Or.inr (Or.inr (Or.inr ⟨s, rfl, ?_⟩))
      simp only [to_int] at h
      by_cases he : (pyStrip s).isEmpty
      · rw [if_pos he] at h; simp at h
      · rw [if_neg he] at h
        by_cases hf : intForm (pyStrip s)
        · rw [if_pos hf] at h; simp at h
        · rw [if_neg hf] at h
          cases hp : pyParseFloat (pyStrip s) with
          | none => rw [hp] at h; simp at h
          | some f =>
            rw [hp] at h
            cases f with
            | finite num den => simp [pyIntOfFloat] at h
            | inf => exact Or.inl rfl
            | neginf => exact Or.inr rfl
            | nan => simp [pyIntOfFloat] at h
  · intro s hs
    simp [to_int, hs]
  · intro s hform hparse
    simp only [to_int]
    by_cases he : (pyStrip s).isEmpty
    · rw [if_pos he]
    · rw [if_neg he, if_neg (by simp [hform]), hparse]
  · intro s num den hform hparse
    have he : (pyStrip s).isEmpty = false := by
      cases hstrip : pyStrip s with
      | nil =>
        rw [hstrip] at hparse
        have hnone : pyParseFloat ([] : List Char) = Option.none := by decide
        rw [hnone] at hparse
        simp at hparse
      | cons a t => simp [hstrip]
    simp only [to_int, he, Bool.false_eq_true, if_false]
    rw [if_neg (by simp [hform]), hparse]
    simp [pyIntOfFloat]

set_option exponentiation.threshold 1100 in
/-- C10 witness: the numeric string `"2.7"` is truncated toward zero, and
the PEP 515 underscored literal `"1_0"` converts to 10. -/
theorem C10_to_int_witness :
    to_int (PyVal.str "2.7".data) = Except.ok (pyTrunc 27 10) ∧
    to_int (PyVal.str "1_0".data) = Except.ok (pyTrunc 10 1) :=
  ⟨C10_to_int_total_characterization.2.2.2.2 "2.7".data 27 10 (by decide) (by decide),
   C10_to_int_total_characterization.2.2.2.2 "1_0".data 10 1 (by decide) (by decide)⟩

/-! ## Progress estimator -/

theorem rawProgress_le_100 (fs avg : Nat) : rawProgress fs avg ≤ 100 := by
  unfold rawProgress
  split
  · exact Nat.min_le_right _ _
  · omega

theorem clampProgress_mono (prev raw : Nat) (r : Bool) (h : prev ≤ 99) :
    prev ≤ clampProgress prev raw r := by
  cases r <;> simp only [clampProgress] <;> split_ifs <;> omega

theorem clampProgress_le_99 (prev raw : Nat) :
    clampProgress prev raw true ≤ 99 := by
  simp only [clampProgress, eq_self_iff_true, and_true]
  split_ifs <;> omega

theorem clampProgress_le_100 (prev raw : Nat) (r : Bool) (hp : prev ≤ 100)
    (hr : raw ≤ 100) : clampProgress prev raw r ≤ 100 := by
  cases r <;> simp only [clampProgress] <;> split_ifs <;> omega

theorem runDownloadLoop_invariant (fs : Nat) :
    ∀ (events : List LoopEvent) (samples : List Nat) (prev : Nat), prev ≤ 99 →
    (∀ t, LoopEvent.pollTick t false ∈ events.dropLast → False) →
    List.Chain' (· ≤ ·) (prev :: (runDownloadLoop fs samples prev events).reported) ∧
    (∀ r ∈ (runDownloadLoop fs samples prev events).reported.dropLast, r ≤ 99) ∧
    (∀ r ∈ (runDownloadLoop fs samples prev events).reported, r ≤ 100) := by
  intro events
  induction events with
  | nil =>
    intro samples prev h1 h2
    simp [runDownloadLoop]
  | cons e rest ih =>
    intro samples prev h1 h2
    cases e with
    | stopTick ok =>
      simp only [runDownloadLoop]
      cases ok <;> simp
    | pollTick total running =>
      simp only [runDownloadLoop]
      cases rest with
      | nil =>
        simp only [runDownloadLoop]
        refine ⟨?_, ?_, ?_⟩
        · exact List.chain'_pair.mpr (clampProgress_mono prev _ running h1)
        · simp
        · intro r hr
          simp only [List.mem_singleton] at hr
          subst hr
          exact clampProgress_le_100 prev _ running (by omega) (rawProgress_le_100 fs _)
      | cons f rest2 =>
        have hrun : running = true := by
          cases hr : running
          · exfalso
            apply h2 total
            rw [hr] at *
            simp [List.dropLast]
          · rfl
        subst hrun
        have hple : clampProgress prev (rawProgress fs (averageBytes (stepSamples samples total))) true ≤ 99 :=
          clampProgress_le_99 prev _
        have h2t : ∀ t, LoopEvent.pollTick t false ∈ (f :: rest2).dropLast → False := by
          intro t ht
          apply h2 t
          simp [List.dropLast, ht]
        have ihh := ih (stepSamples samples total) _ hple h2t
        refine ⟨?_, ?_, ?_⟩
        · rw [List.chain'_cons]
          exact ⟨clampProgress_mono prev _ true h1, ihh.1⟩
        · intro r hr
          cases ho : (runDownloadLoop fs (stepSamples samples total)
              (clampProgress prev (rawProgress fs (averageBytes (stepSamples samples total))) true)
              (f :: rest2)).reported with
          | nil => rw [ho] at hr; simp at hr
          | cons a t =>
            rw [ho] at hr
            simp only [List.dropLast, List.mem_cons] at hr
            rcases hr with hr | hr
            · subst hr; exact hple
            · have := ihh.2.1
              rw [ho] at this
              apply this
              simp [List.dropLast, hr]
        · intro r hr
          simp only [List.mem_cons] at hr
          rcases hr with hr | hr
          · subst hr; omega
          · exact ihh.2.2 r hr

/-- C3 counterexample: when the process exits between the loop-head
`poll()` and the clamp-check `poll()`, the 99-cap is skipped and 100 is
reported on that tick even though completion is not confirmed — here the
subsequent `wait()` returns exit code 1 and the job ends in `"error"`
with 100 already reported. -/
theorem C3_hundred_before_confirmation_counterexample :
    runDownloadLoop 100 [] 0 [LoopEvent.pollTick 500 false] =
      ⟨"exited", [100]⟩ ∧
    postExitStatus 1 = some "error" := by decide

/-- C3 (amended): over any run of the polling loop starting from a
previously reported value ≤ 99 in which only the final iteration may
observe the process already exited at the clamp check, the reported
progress sequence is non-decreasing, every report except possibly the
final one is at most 99, and every report is at most 100 (100 can occur
on the final tick once the process has been observed to exit, before
success is confirmed). -/
theorem C3_progress_monotone_bounded (fs : Nat) (samples : List Nat) (prev : Nat)
    (events : List LoopEvent) (hprev : prev ≤ 99)
    (hvalid : ∀ t, LoopEvent.pollTick t false ∈ events.dropLast → False) :
    List.Chain' (· ≤ ·) (prev :: (runDownloadLoop fs samples prev events).reported) ∧
    (∀ r ∈ (runDownloadLoop fs samples prev events).reported.dropLast, r ≤ 99) ∧
    (∀ r ∈ (runDownloadLoop fs samples prev events).reported, r ≤ 100) :=
  runDownloadLoop_invariant fs events samples prev hprev hvalid

/-- C3 witness at a concrete one-tick run. -/
theorem C3_progress_monotone_witness :
    List.Chain' (· ≤ ·)
      (0 :: (runDownloadLoop 10 [] 0 [LoopEvent.pollTick 5 true]).reported) ∧
    (∀ r ∈ (runDownloadLoop 10 [] 0 [LoopEvent.pollTick 5 true]).reported.dropLast,
      r ≤ 99) ∧
    (∀ r ∈ (runDownloadLoop 10 [] 0 [LoopEvent.pollTick 5 true]).reported, r ≤ 100) :=
  C3_progress_monotone_bounded 10 [] 0 [LoopEvent.pollTick 5 true] (by decide)
    (by simp)

/-- Sum of the last `n` elements, two ways. -/
theorem sum_drop_eq_sum_reverse_take (l : List Nat) (n : Nat) :
    (l.drop (l.length - n)).sum = (l.reverse.take n).sum := by
  have h : l.drop (l.length - n) = l.rtake n := rfl
  rw [h, List.rtake_eq_reverse_take_reverse, List.sum_reverse]

/-- C4 counterexample: the raw tick percentage truncates instead of
rounding — with one sample of 507 bytes against an expected total of 1000
the code computes 50 while the spec's `round` formula gives 51. -/
theorem C4_truncation_not_rounding_counterexample :
    rawProgress 1000 (averageBytes (stepSamples [] 507)) = 50 ∧
    rawPercentRounded 1000 (averageBytes (stepSamples [] 507)) = 51 := by decide

/-- C4 (amended): on a tick with a known (non-zero) expected size, the raw
percentage is `min((floor average of the last 5 samples) * 100 / size, 100)`
with truncating division; when the expected size is 0 the reported value
stays at the previous value and no division occurs. -/
theorem C4_tick_formula (fs prev total : Nat) (samples : List Nat) (running : Bool)
    (hprev : prev ≤ 99) :
    (fs ≠ 0 → rawProgress fs (averageBytes (stepSamples samples total)) =
      min ((((stepSamples samples total).reverse.take 5).sum /
        min (stepSamples samples total).length 5) * 100 / fs) 100) ∧
    (fs = 0 → clampProgress prev
      (rawProgress fs (averageBytes (stepSamples samples total))) running = prev) := by
  constructor
  · intro hfs
    simp only [rawProgress, if_pos hfs, averageBytes]
    rw [sum_drop_eq_sum_reverse_take]
  · intro hfs
    subst hfs
    simp only [rawProgress, ne_eq, not_true_eq_false, if_false]
    cases running <;> simp only [clampProgress] <;> split_ifs <;> omega

/-- C4 witness at a concrete tick. -/
theorem C4_tick_formula_witness :
    rawProgress 10 (averageBytes (stepSamples [] 5)) =
      min ((((stepSamples [] 5).reverse.take 5).sum /
        min (stepSamples [] 5).length 5) * 100 / 10) 100 :=
  (C4_tick_formula 10 0 5 [] true (by decide)).1 (by decide)

/-! ## Queue -/

theorem enqueue_foldl_nodup :
    ∀ (items : List String) (acc : List String × List String), acc.1.Nodup →
    ((items.foldl
      (fun acc item =>
        if item ∈ acc.1 then acc else (acc.1 ++ [item], acc.2 ++ [item]))
      acc).1).Nodup := by
  intro items
  induction items with
  | nil => intro acc h; exact h
  | cons i rest ih =>
    intro acc h
    simp only [List.foldl_cons]
    by_cases hi : i ∈ acc.1
    · rw [if_pos hi]; exact ih acc h
    · rw [if_neg hi]
      apply ih
      simp [List.nodup_append, h, hi]

theorem drainTrace_active_at_head :
    ∀ (succeeds : String → Bool) (ids : List String), ids.Nodup →
    ∀ snap ∈ drainTrace succeeds ids, ∀ id, snap.current = some id →
      snap.queue.head? = some id ∨ id ∉ snap.queue := by
  intro succeeds ids
  induction ids with
  | nil =>
    intro h snap hsnap id hcur
    simp only [drainTrace, List.mem_singleton] at hsnap
    subst hsnap
    simp at hcur
  | cons x rest ih =>
    intro h snap hsnap id hcur
    simp only [drainTrace] at hsnap
    rcases List.mem_cons.mp hsnap with h1 | hsnap2
    · subst h1
      simp only at hcur
      injection hcur with hid
      subst hid
      left
      rfl
    · rcases List.mem_cons.mp hsnap2 with h2 | hsnap3
      · subst h2
        simp only at hcur
        injection hcur with hid
        subst hid
        right
        exact (List.nodup_cons.mp h).1
      · by_cases hs : succeeds x
        · rw [if_pos hs] at hsnap3
          exact ih (List.nodup_cons.mp h).2 snap hsnap3 id hcur
        · rw [if_neg hs] at hsnap3
          simp only [List.mem_singleton] at hsnap3
          subst hsnap3
          simp at hcur

/-- C2 counterexample: during a queue-mode download the active identifier
is still the head of the pending queue (the pop happens only after
`_perform_download` returns), and `enqueue` consults only the pending
queue, so it will add the identifier of the active job (here `"7"` while
`"7"` is downloading with an empty pending queue). -/
theorem C2_queue_contains_active_counterexample :
    (drainTrace (fun _ => true) ["1"]).head? = some ⟨["1"], some "1"⟩ ∧
    "1" ∈ (Snap.mk ["1"] (some "1")).queue ∧
    enqueue [] ["7"] = (["7"], ["7"]) := by decide

/-- C2 (amended): in queue mode the active identifier, when it is still
pending, is exactly the head of the queue (it is removed only after its
download returns), and `enqueue` deduplicates only against the pending
queue, preserving its freedom from duplicates. -/
theorem C2_active_at_head_and_dedup :
    (∀ (succeeds : String → Bool) (ids : List String), ids.Nodup →
      ∀ snap ∈ drainTrace succeeds ids, ∀ id, snap.current = some id →
        snap.queue.head? = some id ∨ id ∉ snap.queue) ∧
    (∀ (q items : List String), q.Nodup → ((enqueue q items).1).Nodup) :=
  ⟨drainTrace_active_at_head, fun q items h => enqueue_foldl_nodup items (q, []) h⟩

/-- C2 witness at a concrete one-element queue run. -/
theorem C2_active_at_head_witness :
    (Snap.mk ["1"] (some "1")).queue.head? = some "1" ∨
      "1" ∉ (Snap.mk ["1"] (some "1")).queue :=
  C2_active_at_head_and_dedup.1 (fun _ => true) ["1"] (by simp)
    ⟨["1"], some "1"⟩ (by decide) "1" rfl

/-- C5 counterexample: with queue `["1", "2"]` where `"1"` fails, the
drain loop pops `"1"` and `break`s: only `"1"` is ever run and `"2"`
remains pending although no stop was requested. -/
theorem C5_queue_stops_after_failure_counterexample :
    processQueueResult (fun s => s == "2") ["1", "2"] = (["1"], ["2"]) ∧
    "2" ∈ (processQueueResult (fun s => s == "2") ["1", "2"]).2 := by decide

/-- C5 (amended): the drain loop runs the longest successful FIFO run plus
the first failing identifier (which is popped, not retried) and then
stops; everything after the first failure remains pending. -/
theorem C5_drain_characterization (succeeds : String → Bool) (q : List String) :
    processQueueResult succeeds q =
      (q.take ((q.takeWhile succeeds).length + 1),
       q.drop ((q.takeWhile succeeds).length + 1)) := by
  induction q with
  | nil => rfl
  | cons id rest ih =>
    by_cases hs : succeeds id
    · simp [processQueueResult, hs, List.takeWhile_cons, ih]
    · simp [processQueueResult, hs, List.takeWhile_cons]

/-! ## Admission -/

/-- C6: while a worker is alive, `start_download` and `start_queue` reject
the request with an error message and leave the whole manager state
(including the pending queue) unchanged; no worker is spawned and nothing
is queued. -/
theorem C6_busy_rejection (s : ManagerState) (wid : String) (h : is_busy s = true) :
    start_download s wid = ((false, some "Another download is already running"), s) ∧
    start_queue s = ((false, some "A download is already running"), s) := by
  simp [start_download, start_queue, h]

/-- C6 witness at a concrete busy state. -/
theorem C6_busy_rejection_witness :
    start_download ⟨true, false, false, some "single", ["9"]⟩ "5" =
      ((false, some "Another download is already running"),
        ⟨true, false, false, some "single", ["9"]⟩) ∧
    start_queue ⟨true, false, false, some "single", ["9"]⟩ =
      ((false, some "A download is already running"),
        ⟨true, false, false, some "single", ["9"]⟩) :=
  C6_busy_rejection ⟨true, false, false, some "single", ["9"]⟩ "5" rfl

/-! ## Cancellation -/

/-- C7 counterexample: cancellation with a terminated process that takes
longer than the 5-second `wait(timeout=5)` raises `TimeoutExpired` into
the catch-all handler, so the job ends in `"error"`, not `"stopped"`. -/
theorem C7_slow_exit_error_counterexample :
    (runDownloadLoop 1000 [] 0 [LoopEvent.stopTick false]).phase = "error" ∧
    ("error" : String) ≠ "stopped" ∧ ("error" : String) ≠ "completed" := by decide

/-- C7 (amended): when the polling loop reaches an iteration with the stop
event set, the job ends in `"stopped"` exactly when the terminated
process exits within the 5-second bounded wait, and in `"error"` (via the
uncaught `TimeoutExpired`) when it does not. -/
theorem C7_stop_phase (fs : Nat) (samples : List Nat) (prev : Nat)
    (pre rest : List LoopEvent) (ok : Bool)
    (hpre : ∀ e ∈ pre, ∃ t r, e = LoopEvent.pollTick t r) :
    (runDownloadLoop fs samples prev (pre ++ LoopEvent.stopTick ok :: rest)).phase =
      if ok then "stopped" else "error" := by
  induction pre generalizing samples prev with
  | nil =>
    simp only [List.nil_append, runDownloadLoop]
    cases ok <;> simp
  | cons e pre2 ih =>
    obtain ⟨t, r, rfl⟩ := hpre e (List.mem_cons_self e pre2)
    simp only [List.cons_append, runDownloadLoop]
    exact ih _ _ (fun e2 he2 => hpre e2 (List.mem_cons_of_mem _ he2))

/-- C7 witness: a run whose process exits inside the bounded wait ends in
`"stopped"`. -/
theorem C7_stop_phase_witness :
    (runDownloadLoop 10 [] 0
      ([LoopEvent.pollTick 5 true] ++ LoopEvent.stopTick true :: [])).phase =
      "stopped" := by
  simpa using C7_stop_phase 10 [] 0 [LoopEvent.pollTick 5 true] [] true
    (by intro e he; simp at he; subst he; exact ⟨5, true, rfl⟩)

/-! ## Malformed identifiers and admission -/

/-- C8 counterexample: the endpoint admits the malformed identifier
`"abc"` (HTTP 200, worker thread spawned), and the worker then walks
`preparing → error`; the non-terminal phase `"preparing"` is entered for
the malformed request, so rejection does not happen before admission. -/
theorem C8_malformed_admitted_counterexample :
    download_workshop_item ⟨false, false, false, Option.none, []⟩ "abc" =
      (200, ⟨true, false, false, some "single", []⟩) ∧
    preDownloadPhases ⟨"d".data, "s".data, true, false, "", true, true, true⟩
      "abc".data = ["preparing", "error"] ∧
    "preparing" ∈ preDownloadPhases
      ⟨"d".data, "s".data, true, false, "", true, true, true⟩ "abc".data := by decide

/-- C8 (amended): a malformed identifier (stripped form neither all-digit
nor containing `id=<digits>`) is admitted and fails inside the worker:
with both paths configured it is rejected at the identifier check of the
`preparing` phase, the phase trace is `preparing → error`, and the
external process is never launched. -/
theorem C8_malformed_fails_in_worker (env : DownloadEnv) (w0 : List Char)
    (hd : env.destinationRaw ≠ []) (hs : env.steamcmdRaw ≠ [])
    (h1 : pyIsDigit (pyStrip w0) = false)
    (h2 : extract_workshop_id (pyStrip w0) = Option.none) :
    preDownload env w0 = PreOutcome.rejected "Invalid Workshop ID" ∧
    preDownloadPhases env w0 = ["preparing", "error"] := by
  have hmain : preDownload env w0 = PreOutcome.rejected "Invalid Workshop ID" := by
    simp [preDownload, hd, hs, h1, h2]
  exact ⟨hmain, by simp [preDownloadPhases, hmain]⟩

/-- C8 witness at a concrete malformed identifier. -/
theorem C8_malformed_fails_witness :
    preDownload ⟨"d".data, "s".data, true, false, "", true, true, true⟩ "zzz".data =
      PreOutcome.rejected "Invalid Workshop ID" ∧
    preDownloadPhases ⟨"d".data, "s".data, true, false, "", true, true, true⟩
      "zzz".data = ["preparing", "error"] :=
  C8_malformed_fails_in_worker _ _ (by decide) (by decide) (by decide) (by decide)

/-! ## Install collision -/

/-- C1: the collision loop is dead code — its guard
`final_folder.name != folder_name` is false on the first candidate, so
with `cool_map` already present the install still chooses `cool_map` and
`copytree(..., dirs_exist_ok=True)` copies into the existing directory
instead of a suffixed fresh one. -/
theorem C1_install_reuses_existing_folder :
    resolveFinalFolder ["cool_map"] "cool_map" "999" = "cool_map" ∧
    "cool_map" ∈ (["cool_map"] : List String) := by
  constructor
  · rw [resolveFinalFolder, resolveAux]
    simp
  · simp
